import Mathlib

/-!
Shallow embedding of the oxzmq ZMTP protocol library (crate oxzmq-zmtp).

Bytes are modelled as `Nat` (values < 256 on real streams); byte streams are
`List Nat`.  Machine integers (`u8`, `u64`, `usize`) are modelled as `Nat`
with explicit `% 256`-style arithmetic where byte extraction matters; the
host is taken to be 64-bit, so `usize::to_be_bytes` yields 8 bytes.

Fallible Rust code returns `RRes`, which also has a `panic` outcome for the
places where the source can panic (slice indexing out of bounds).
-/

namespace Oxzmq

/-- Result of running a fallible Rust computation: success, a returned error,
or a panic (Rust unwinding, e.g. from out-of-bounds slice indexing). -/
inductive RRes (ε α : Type) where
  | ok (a : α)
  | err (e : ε)
  | panic
deriving DecidableEq

/-- Model of `get_bit` in frame.rs: `n & (1 << bit) != 0`, returning false
for out-of-range bits. -/
def get_bit (n : Nat) (bit : Nat) : Bool :=
  if bit < 8 then n.testBit bit else false

/-- Model of `set_bit` in frame.rs: `n | (1 << bit)`, discarding
out-of-range sets. -/
def set_bit (n : Nat) (bit : Nat) : Nat :=
  if bit < 8 then n ||| (1 <<< bit) else n

/-- Big-endian bytes of a 64-bit unsigned integer (`u64::to_be_bytes`,
`usize::to_be_bytes` on a 64-bit host). -/
def toBeBytes8 (n : Nat) : List Nat :=
  [n / 2 ^ 56 % 256, n / 2 ^ 48 % 256, n / 2 ^ 40 % 256, n / 2 ^ 32 % 256,
   n / 2 ^ 24 % 256, n / 2 ^ 16 % 256, n / 2 ^ 8 % 256, n % 256]

/-- Big-endian value of a byte list (`u{8,32,64}::from_be_bytes`). -/
def fromBeBytes (l : List Nat) : Nat :=
  l.foldl (fun acc b => acc * 256 + b) 0

/-- Model of `stream.read_exact` on a buffered stream: returns the bytes read
and the rest of the stream, or `none` when the stream is too short (an I/O
error in the source). -/
def readExact (n : Nat) (s : List Nat) : Option (List Nat × List Nat) :=
  if n ≤ s.length then some (s.take n, s.drop n) else none

/-- Model of `stream.read_until(delim, ..)`: reads up to and including the
first occurrence of `delim`, or to end of stream. Returns (bytes read, rest). -/
def readUntil (delim : Nat) : List Nat → List Nat × List Nat
  | [] => ([], [])
  | b :: rest =>
    if b == delim then ([b], rest)
    else
      let p := readUntil delim rest
      (b :: p.1, p.2)

/-- Is the byte a UTF-8 continuation byte (0x80..=0xBF)? -/
def isCont (b : Nat) : Bool := 128 ≤ b && b ≤ 191

/-- UTF-8 validity of a byte sequence, as checked by Rust's
`String::from_utf8` / `str::from_utf8` (standard UTF-8: no overlong forms,
no surrogates, max U+10FFFF). -/
def isValidUtf8 : List Nat → Bool
  | [] => true
  | b :: rest =>
    if b ≤ 127 then isValidUtf8 rest
    else if b < 194 then false
    else if b ≤ 223 then
      match rest with
      | b2 :: r => isCont b2 && isValidUtf8 r
      | [] => false
    else if b = 224 then
      match rest with
      | b2 :: b3 :: r => (160 ≤ b2 && b2 ≤ 191) && isCont b3 && isValidUtf8 r
      | _ => false
    else if b ≤ 236 then
      match rest with
      | b2 :: b3 :: r => isCont b2 && isCont b3 && isValidUtf8 r
      | _ => false
    else if b = 237 then
      match rest with
      | b2 :: b3 :: r => (128 ≤ b2 && b2 ≤ 159) && isCont b3 && isValidUtf8 r
      | _ => false
    else if b ≤ 239 then
      match rest with
      | b2 :: b3 :: r => isCont b2 && isCont b3 && isValidUtf8 r
      | _ => false
    else if b = 240 then
      match rest with
      | b2 :: b3 :: b4 :: r =>
        (144 ≤ b2 && b2 ≤ 191) && isCont b3 && isCont b4 && isValidUtf8 r
      | _ => false
    else if b ≤ 243 then
      match rest with
      | b2 :: b3 :: b4 :: r => isCont b2 && isCont b3 && isCont b4 && isValidUtf8 r
      | _ => false
    else if b = 244 then
      match rest with
      | b2 :: b3 :: b4 :: r =>
        (128 ≤ b2 && b2 ≤ 143) && isCont b3 && isCont b4 && isValidUtf8 r
      | _ => false
    else false

/-- A ZMTP frame (frame.rs). Command names are kept as their UTF-8 bytes
(a Rust `String` is exactly its valid UTF-8 byte sequence). -/
inductive Frame where
  | command (name : List Nat) (data : List Nat)
  | message (more : Bool) (data : List Nat)
deriving DecidableEq

/-- Model of `Frame::data`. -/
def Frame.data : Frame → List Nat
  | .command _ d => d
  | .message _ d => d

/-- Errors of `Frame::read_new` (enum `FrameParseError`).  `messageTooLarge`
is unreachable on a 64-bit host (`usize::try_from(u64)` is infallible there),
and `ioError` models the `Io` variant. -/
inductive FrameParseError where
  | ioError
  | flags
  | multipartCommand
  | commandNameInvalidUtf8
  | messageTooLarge
deriving DecidableEq

/-- Model of `Frame::read_new` (frame.rs lines 83-151).  Returns the parsed
frame and the remaining (unconsumed) stream.  Both body branches use
`read_to_end`, so all remaining stream bytes are consumed. -/
def Frame.read_new (s : List Nat) : RRes FrameParseError (Frame × List Nat) :=
  match readExact 1 s with
  | none => .err .ioError
  | some (flags_buf, s1) =>
    let flag_bits := fromBeBytes flags_buf
    let more_frames := get_bit flag_bits 0
    let long := get_bit flag_bits 1
    let kindIsCommand := get_bit flag_bits 2
    -- Bits 3..=7 shall not be set.
    if get_bit flag_bits 3 || get_bit flag_bits 4 || get_bit flag_bits 5 ||
        get_bit flag_bits 6 || get_bit flag_bits 7 then
      .err .flags
    else
      match readExact (if long then 8 else 1) s1 with
      | none => .err .ioError
      | some (len_buf, s2) =>
        -- data_len is bound in the source and used only as a Vec capacity;
        -- usize::try_from(data_len) cannot fail on a 64-bit host.
        let data_len := fromBeBytes len_buf
        if kindIsCommand then
          if more_frames then .err .multipartCommand
          else
            let p := readUntil 0 s2
            -- Get rid of the null delimiter (Vec::pop).
            let command_name_bytes := p.1.dropLast
            if isValidUtf8 command_name_bytes then
              -- read_to_end: the rest of the stream becomes the command data.
              .ok (Frame.command command_name_bytes p.2, [])
            else .err .commandNameInvalidUtf8
        else
          -- Vec::with_capacity(data_len); read_to_end consumes everything.
          let _cap := data_len
          .ok (Frame.message more_frames s2, [])

/-- Model of `Frame::write_to` (frame.rs lines 153-206), returning the bytes
written to the stream. -/
def Frame.write_to (f : Frame) : List Nat :=
  let flags0 : Nat := 0
  let flags1 :=
    match f with
    | .message true _ => set_bit flags0 0
    | _ => flags0
  let flags2 := if f.data.length > 255 then set_bit flags1 1 else flags1
  let flags :=
    match f with
    | .command _ _ => set_bit flags2 2
    | _ => flags2
  -- Account for the length of the command name, which goes in the frame's
  -- data field on the wire (the NUL terminator is not counted here).
  let total_data_len :=
    match f with
    | .command name _ => f.data.length + name.length
    | _ => f.data.length
  let length_bytes_len := if total_data_len > 255 then 8 else 1
  -- &self.data().len().to_be_bytes()[..length_bytes_len]
  let length_bytes := (toBeBytes8 f.data.length).take length_bytes_len
  let pre_data_buf :=
    [flags] ++ length_bytes ++
      (match f with
       | .command name _ => name ++ [0]
       | _ => [])
  pre_data_buf ++ f.data

/-- UTF-8 byte length of a Unicode scalar value (Rust `char::len_utf8`). -/
def charUtf8Len (c : Nat) : Nat :=
  if c < 128 then 1
  else if c < 2048 then 2
  else if c < 65536 then 3
  else 4

/-- UTF-8 encoding of a Unicode scalar value. -/
def charUtf8Enc (c : Nat) : List Nat :=
  if c < 128 then [c]
  else if c < 2048 then [192 + c / 64, 128 + c % 64]
  else if c < 65536 then [224 + c / 4096, 128 + c / 64 % 64, 128 + c % 64]
  else [240 + c / 262144, 128 + c / 4096 % 64, 128 + c / 64 % 64, 128 + c % 64]

/-- UTF-8 encoding of a string given as its list of Unicode scalar values
(a Rust `&str` is exactly this byte sequence). -/
def utf8Encode (cs : List Nat) : List Nat := (cs.map charUtf8Enc).flatten

/-- Model of the truncation loop of `Frame::new_fatal_error` (frame.rs lines
56-62): walks the chars, stopping before the char that would push the byte
index past 255. -/
def finalByteIdx : List Nat → Nat → Nat
  | [], acc => acc
  | c :: rest, acc =>
    if acc + charUtf8Len c > 255 then acc
    else finalByteIdx rest (acc + charUtf8Len c)

/-- The command name "ERROR" as bytes. -/
def ERROR_NAME : List Nat := [69, 82, 82, 79, 82]

/-- Model of `Frame::new_fatal_error` (frame.rs lines 54-81).  The message is
given as its list of Unicode scalar values; `&msg[..final_byte_idx]` is byte
slicing of the UTF-8 encoding. -/
def Frame.new_fatal_error (msg : List Nat) : Frame :=
  let final_byte_idx := finalByteIdx msg 0
  let truncated := (utf8Encode msg).take final_byte_idx
  -- u8::try_from(msg.len()).unwrap(): the length is at most 255 (see the
  -- totality theorem), so the conversion succeeds and is the identity here.
  let msg_size := truncated.length
  Frame.command ERROR_NAME (msg_size :: truncated)

/-- Rust `char::is_alphanumeric`, modelled on the ASCII range.  In the two
places the source uses it, it appears alongside membership tests in ASCII
character sets, and the combined predicates agree with Rust's on every
character; non-ASCII alphanumerics are not modelled separately. -/
def rust_is_alphanumeric (c : Nat) : Bool :=
  (48 ≤ c && c ≤ 57) || (65 ≤ c && c ≤ 90) || (97 ≤ c && c ≤ 122)

/-- Rust `char::is_lowercase`, modelled on the ASCII range (the greeting
mechanism field contents exercised by the claims are ASCII). -/
def rust_is_lowercase (c : Nat) : Bool := 97 ≤ c && c ≤ 122

/-- Decode a valid UTF-8 byte sequence into its Unicode scalar values
(Rust `str::chars`).  Total; output on invalid input is irrelevant because
every call site first checks `isValidUtf8`. -/
def utf8DecodeChars : List Nat → List Nat
  | [] => []
  | b :: rest =>
    if b ≤ 127 then b :: utf8DecodeChars rest
    else if b ≤ 223 then
      match rest with
      | b2 :: r => ((b - 192) * 64 + (b2 - 128)) :: utf8DecodeChars r
      | [] => []
    else if b ≤ 239 then
      match rest with
      | b2 :: b3 :: r =>
        ((b - 224) * 4096 + (b2 - 128) * 64 + (b3 - 128)) :: utf8DecodeChars r
      | _ => []
    else
      match rest with
      | b2 :: b3 :: b4 :: r =>
        ((b - 240) * 262144 + (b2 - 128) * 4096 + (b3 - 128) * 64 + (b4 - 128)) ::
          utf8DecodeChars r
      | _ => []

/-- Rust `str::to_lowercase` on the UTF-8 bytes of a string.  Rust performs
Unicode lowercasing; this coincides with the ASCII mapping on the ASCII
keys the code and claims use (continuation bytes of multi-byte characters
are ≥ 0x80, so the bytewise map leaves them unchanged). -/
def toLowercaseBytes (bytes : List Nat) : List Nat :=
  bytes.map (fun b => if 65 ≤ b && b ≤ 90 then b + 32 else b)

/-- Association-list lookup by key (model of `HashMap::get`). -/
def assocGet (m : List (List Nat × List Nat)) (k : List Nat) : Option (List Nat) :=
  match m with
  | [] => none
  | e :: rest => if e.1 == k then some e.2 else assocGet rest k

/-- Association-list insert-or-overwrite (model of `HashMap::insert`). -/
def assocInsert (m : List (List Nat × List Nat)) (k v : List Nat) :
    List (List Nat × List Nat) :=
  match m with
  | [] => [(k, v)]
  | e :: rest => if e.1 == k then (e.1, v) :: rest else e :: assocInsert rest k v

/-- Model of `Properties` (handshake.rs): the HashMap is modelled as an
association list (iteration order is fixed by the list; the source's HashMap
order is arbitrary, and all maps in the claims have at most one entry). -/
structure Properties where
  inner : List (List Nat × List Nat)
deriving DecidableEq

/-- Model of `Properties::new`. -/
def Properties.new : Properties := ⟨[]⟩

/-- Model of `Properties::get`: keys are lowercased before lookup. -/
def Properties.get (p : Properties) (key : List Nat) : Option (List Nat) :=
  assocGet p.inner (toLowercaseBytes key)

/-- Model of `Properties::insert`: keys are lowercased before insertion. -/
def Properties.insert (p : Properties) (key value : List Nat) : Properties :=
  ⟨assocInsert p.inner (toLowercaseBytes key) value⟩

/-- Errors of `Properties::parse_from_slice` (enum `PropertiesParseError`).
`emptySlice` is unreachable: the loop guard guarantees the slice is
nonempty when `rest.get(0)` runs. -/
inductive PropertiesParseError where
  | emptySlice
  | zeroSizedName
  | nameInvalidChar
  | nameSizeIncorrect
  | valueSizeIncomplete
  | valueSizeIncorrect
deriving DecidableEq

/-- The character check applied to each parsed property name (handshake.rs
lines 72-77): `c.is_alphanumeric() && ['-', '_', '.', '+'].contains(&c)`.
Note the source uses a conjunction, so no character ever passes. -/
def propNameCharOk (c : Nat) : Bool :=
  rust_is_alphanumeric c && (c == 45 || c == 95 || c == 46 || c == 43)

/-- Loop body of `Properties::parse_from_slice` (handshake.rs lines 56-93),
with explicit fuel for structural recursion; each iteration consumes at
least 5 bytes of `rest`, so `bytes.length` fuel always suffices and the
fuel-exhaustion branch is unreachable.  Faithful to the source: after
reading a value the slice is NOT advanced past the value bytes, and
`&rest[..4]` panics when fewer than 4 bytes remain. -/
def Properties.parseLoop :
    Nat → List (List Nat × List Nat) → List Nat →
      RRes PropertiesParseError Properties
  | _, map, [] => .ok ⟨map⟩
  | 0, _, _ :: _ => .panic
  | fuel + 1, map, name_size :: rest1 =>
    if name_size == 0 then .err .zeroSizedName
    else if rest1.length < name_size then .err .nameSizeIncorrect
    else
      let name_bytes := rest1.take name_size
      -- str::from_utf8 failure is mapped to NameInvalidChar in the source.
      if ¬ isValidUtf8 name_bytes then .err .nameInvalidChar
      else if ¬ (utf8DecodeChars name_bytes).all propNameCharOk then
        .err .nameInvalidChar
      else
        let rest2 := rest1.drop name_size
        -- &rest[..4] panics when rest is shorter than 4 bytes
        -- (the ValueSizeIncomplete branch is dead code in the source).
        if rest2.length < 4 then .panic
        else
          let value_size := fromBeBytes (rest2.take 4)
          let rest3 := rest2.drop 4
          if rest3.length < value_size then .err .valueSizeIncorrect
          else
            let value_bytes := rest3.take value_size
            -- The source does not advance rest past the value bytes.
            Properties.parseLoop fuel
              (assocInsert map (toLowercaseBytes name_bytes) value_bytes) rest3

/-- Model of `Properties::parse_from_slice`. -/
def Properties.parse_from_slice (bytes : List Nat) :
    RRes PropertiesParseError Properties :=
  Properties.parseLoop bytes.length [] bytes

/-- Model of `Properties::write_to` (handshake.rs lines 95-111), returning
the bytes written.  `name.len().to_be_bytes()` and `value.len().to_be_bytes()`
are `usize::to_be_bytes`, producing 8 bytes each on a 64-bit host. -/
def Properties.write_to (p : Properties) : List Nat :=
  p.inner.foldl
    (fun buf e =>
      buf ++ toBeBytes8 e.1.length ++ e.1 ++ toBeBytes8 e.2.length ++ e.2)
    []

/-- The eleven ZeroMQ socket types (socket.rs). -/
inductive SocketType where
  | Req | Rep | Dealer | Router | Pub | Sub | XPub | XSub | Push | Pull | Pair
deriving DecidableEq

/-- Model of `SUPPORTED_SOCKET_TYPES` (socket.rs line 7). -/
def SUPPORTED_SOCKET_TYPES : List SocketType := [.Req, .Rep]

/-- Model of `SocketType::valid_socket_combo` (socket.rs lines 25-43). -/
def SocketType.valid_socket_combo (a other : SocketType) : Bool :=
  match a with
  | .Req => [SocketType.Rep, SocketType.Router].contains other
  | .Rep => [SocketType.Req, SocketType.Dealer].contains other
  | .Dealer => [SocketType.Rep, SocketType.Dealer, SocketType.Router].contains other
  | .Router => [SocketType.Req, SocketType.Dealer, SocketType.Router].contains other
  | .Pub => [SocketType.Sub, SocketType.XSub].contains other
  | .XPub => [SocketType.Sub, SocketType.XSub].contains other
  | .Sub => [SocketType.Pub, SocketType.XPub].contains other
  | .XSub => [SocketType.Pub, SocketType.XPub].contains other
  | .Push => [SocketType.Pull].contains other
  | .Pull => [SocketType.Push].contains other
  | .Pair => [SocketType.Pair].contains other

/-- Model of `From<&SocketType> for &'static str` (socket.rs lines 86-102),
as UTF-8 bytes. -/
def SocketType.name : SocketType → List Nat
  | .Req => [82, 69, 81]
  | .Rep => [82, 69, 80]
  | .Dealer => [68, 69, 65, 76, 69, 82]
  | .Router => [82, 79, 85, 84, 69, 82]
  | .Pub => [80, 85, 66]
  | .Sub => [83, 85, 66]
  | .XPub => [88, 80, 85, 66]
  | .XSub => [88, 83, 85, 66]
  | .Push => [80, 85, 83, 72]
  | .Pull => [80, 85, 76, 76]
  | .Pair => [80, 65, 73, 82]

/-- Errors of `SocketType::try_from` (the `Unknown`/`Unsupported` payloads
are kept as the offending name bytes). -/
inductive SocketTypeFromBytesError where
  | unknown (name : List Nat)
  | unsupported (name : List Nat)
  | notUtf8
deriving DecidableEq

/-- Model of `TryFrom<&[u8]> for SocketType` (socket.rs lines 46-72). -/
def SocketType.try_from (bytes : List Nat) :
    RRes SocketTypeFromBytesError SocketType :=
  if ¬ isValidUtf8 bytes then .err .notUtf8
  else
    let found : Option SocketType :=
      if bytes == SocketType.name .Req then some .Req
      else if bytes == SocketType.name .Rep then some .Rep
      else if bytes == SocketType.name .Dealer then some .Dealer
      else if bytes == SocketType.name .Router then some .Router
      else if bytes == SocketType.name .Pub then some .Pub
      else if bytes == SocketType.name .Sub then some .Sub
      else if bytes == SocketType.name .XPub then some .XPub
      else if bytes == SocketType.name .XSub then some .XSub
      else if bytes == SocketType.name .Push then some .Push
      else if bytes == SocketType.name .Pull then some .Pull
      else if bytes == SocketType.name .Pair then some .Pair
      else none
    match found with
    | none => .err (.unknown bytes)
    | some socket_type =>
      if ¬ SUPPORTED_SOCKET_TYPES.contains socket_type then
        .err (.unsupported bytes)
      else .ok socket_type

/-- Greeting version field (lib.rs `Version`). -/
structure Version where
  major : Nat
  minor : Nat
deriving DecidableEq

/-- Security mechanism (lib.rs `Mechanism`): only NULL exists. -/
inductive Mechanism where
  | Null
deriving DecidableEq

/-- Greeting as-server role flag (lib.rs `AsServer`). -/
inductive AsServer where
  | Server
  | Client
deriving DecidableEq

/-- The parsed greeting (lib.rs `Greeting`). -/
structure Greeting where
  version : Version
  mechanism : Mechanism
  as_server : AsServer
deriving DecidableEq

/-- Errors of `Greeting::read_new` (enum `GreetingError`); `ioError` models
the `Io` variant. -/
inductive GreetingError where
  | ioError
  | signature
  | versionUnsupported (v : Version)
  | mechanismNotUtf8
  | mechanismInvalidChar
  | mechanismUnsupported
  | asServer (b : Nat)
deriving DecidableEq

/-- Model of `PADDING_LEN` (lib.rs line 17). -/
def PADDING_LEN : Nat := 80

/-- Model of `FILLER_LEN` (lib.rs line 18). -/
def FILLER_LEN : Nat := 31

/-- The character check applied to the greeting mechanism string (lib.rs
lines 146-148): `c.is_lowercase() || !(c.is_alphanumeric() || contains)`. -/
def mechanismCharBad (c : Nat) : Bool :=
  rust_is_lowercase c ||
    !(rust_is_alphanumeric c || (c == 45 || c == 95 || c == 46 || c == 43))

/-- The mechanism name "NULL" as bytes. -/
def NULL_MECHANISM : List Nat := [78, 85, 76, 76]

/-- Model of `Greeting::read_new` (lib.rs lines 102-175).  Returns the
parsed greeting and the remaining stream. -/
def Greeting.read_new (s : List Nat) : RRes GreetingError (Greeting × List Nat) :=
  match readExact 1 s with
  | none => .err .ioError
  | some (sig_first_buf, s1) =>
  match readExact PADDING_LEN s1 with
  | none => .err .ioError
  | some (_sig_padding, s2) =>
  match readExact 1 s2 with
  | none => .err .ioError
  | some (sig_last_buf, s3) =>
    let sig_first_byte := fromBeBytes sig_first_buf
    let sig_last_byte := fromBeBytes sig_last_buf
    if sig_first_byte ≠ 255 then .err .signature
    else if sig_last_byte ≠ 127 then .err .signature
    else
      match readExact 1 s3 with
      | none => .err .ioError
      | some (version_major_buf, s4) =>
      match readExact 1 s4 with
      | none => .err .ioError
      | some (version_minor_buf, s5) =>
        let version : Version :=
          ⟨fromBeBytes version_major_buf, fromBeBytes version_minor_buf⟩
        match readExact 20 s5 with
        | none => .err .ioError
        | some (mechanism_buf, s6) =>
          let null_idx := mechanism_buf.findIdx (fun x => x == 0)
          let mechanism_bytes := mechanism_buf.take null_idx
          if ¬ isValidUtf8 mechanism_bytes then .err .mechanismNotUtf8
          else if (utf8DecodeChars mechanism_bytes).any mechanismCharBad then
            .err .mechanismInvalidChar
          else if mechanism_bytes ≠ NULL_MECHANISM then .err .mechanismUnsupported
          else
            match readExact 1 s6 with
            | none => .err .ioError
            | some (as_server_buf, s7) =>
              let b := fromBeBytes as_server_buf
              if b = 0 then
                match readExact FILLER_LEN s7 with
                | none => .err .ioError
                | some (_filler, s8) =>
                  .ok (⟨version, .Null, .Client⟩, s8)
              else if b = 1 then
                match readExact FILLER_LEN s7 with
                | none => .err .ioError
                | some (_filler, s8) =>
                  .ok (⟨version, .Null, .Server⟩, s8)
              else .err (.asServer b)

/-- Errors of `NullHandshake::perform` (null.rs `NullHandshakeError`);
frame-parse errors (including their I/O variant) arrive wrapped in
`frameParse`. -/
inductive NullHandshakeError where
  | ioError
  | noReadyCommand
  | frameParse (e : FrameParseError)
  | propertiesParse (e : PropertiesParseError)
deriving DecidableEq

/-- The command name "READY" as bytes. -/
def READY_NAME : List Nat := [82, 69, 65, 68, 89]

/-- The property key "socket-type" as bytes. -/
def SOCKET_TYPE_KEY : List Nat :=
  [115, 111, 99, 107, 101, 116, 45, 116, 121, 112, 101]

/-- The Properties map sent by `NullHandshake::perform`: just
"socket-type" mapped to the local socket type's canonical name. -/
def localReadyProperties (socket_type : SocketType) : Properties :=
  Properties.insert Properties.new SOCKET_TYPE_KEY socket_type.name

/-- The READY command frame sent by `NullHandshake::perform`, carrying the
serialized local properties. -/
def readyFrame (socket_type : SocketType) : Frame :=
  Frame.command READY_NAME (Properties.write_to (localReadyProperties socket_type))

/-- Model of `NullHandshake::perform` (null.rs lines 19-55): returns the
handshake outcome (the received peer properties) together with all bytes
written to the stream.  The READY command is written before the single
`Frame::read_new` call. -/
def NullHandshake.perform (input : List Nat) (socket_type : SocketType) :
    RRes NullHandshakeError Properties × List Nat :=
  let written := Frame.write_to (readyFrame socket_type)
  match Frame.read_new input with
  | .err e => (.err (.frameParse e), written)
  | .panic => (.panic, written)
  | .ok (Frame.message _ _, _) => (.err .noReadyCommand, written)
  | .ok (Frame.command cmd_name cmd_data, _) =>
    if cmd_name ≠ READY_NAME then (.err .noReadyCommand, written)
    else
      match Properties.parse_from_slice cmd_data with
      | .ok props => (.ok props, written)
      | .err e => (.err (.propertiesParse e), written)
      | .panic => (.panic, written)

/-- Errors of `Handshake::perform` (handshake.rs `HandshakeError`). -/
inductive HandshakeError where
  | null (e : NullHandshakeError)
deriving DecidableEq

/-- Model of `Handshake::perform` (handshake.rs lines 21-34): dispatch on
the greeting's mechanism; only NULL exists. -/
def Handshake.perform (input : List Nat) (greeting : Greeting)
    (socket_type : SocketType) : RRes HandshakeError Properties × List Nat :=
  match greeting.mechanism with
  | .Null =>
    match NullHandshake.perform input socket_type with
    | (.ok p, w) => (.ok p, w)
    | (.err e, w) => (.err (.null e), w)
    | (.panic, w) => (.panic, w)

/-- Errors of `Connection::new` (lib.rs `ConnectionError`).  The source
enum lacks variants for handshake and socket-type failures even though
`Connection::new` propagates them with `?` (the file does not compile as
written); `handshake` and `socketType` are modelled from the spec, which
says handshake errors and socket-type parse failures surface as typed
connection failures. -/
inductive ConnectionError where
  | ioError
  | greeting (e : GreetingError)
  | handshake (e : HandshakeError)
  | socketType (e : SocketTypeFromBytesError)
  | invalidSocketCombination (localT remoteT : SocketType)
deriving DecidableEq

/-- The established-connection state retained by `Connection::new`
(stream ownership and the multipart buffer are not modelled as data). -/
structure Connection where
  remote_version : Version
  remote_socket_type : SocketType
deriving DecidableEq

/-- The message "invalid socket combination" as Unicode scalar values. -/
def INVALID_COMBO_MSG : List Nat :=
  [105, 110, 118, 97, 108, 105, 100, 32, 115, 111, 99, 107, 101, 116, 32,
   99, 111, 109, 98, 105, 110, 97, 116, 105, 111, 110]

/-- Model of `Connection::new` (lib.rs lines 36-67): greeting, handshake,
remote socket type extraction, compatibility check.  Returns the outcome and
all bytes written to the stream.  The source line
`SocketType::from(remote_socket_type_bytes)` does not compile (no such impl
for `Option<&[u8]>`); per the spec, the remote socket type is parsed from
the properties' "socket-type" value via `SocketType::try_from`, and a
missing key (unreachable in the claims' scenarios) is modelled as a panic. -/
def Connection.new (input : List Nat) (socket_type : SocketType) :
    RRes ConnectionError Connection × List Nat :=
  match Greeting.read_new input with
  | .err e => (.err (.greeting e), [])
  | .panic => (.panic, [])
  | .ok (greeting, rest) =>
    match Handshake.perform rest greeting socket_type with
    | (.err e, written) => (.err (.handshake e), written)
    | (.panic, written) => (.panic, written)
    | (.ok props, written) =>
      match props.get SOCKET_TYPE_KEY with
      | none => (.panic, written)
      | some remote_socket_type_bytes =>
        match SocketType.try_from remote_socket_type_bytes with
        | .err e => (.err (.socketType e), written)
        | .panic => (.panic, written)
        | .ok remote_socket_type =>
          if ¬ socket_type.valid_socket_combo remote_socket_type then
            (.err (.invalidSocketCombination socket_type remote_socket_type),
             written ++ Frame.write_to (Frame.new_fatal_error INVALID_COMBO_MSG))
          else
            (.ok ⟨greeting.version, remote_socket_type⟩, written)

/-- Specification-side definition (for comparison with the code's
`valid_socket_combo`): the ordered pairs the spec's compatibility table
lists as valid. -/
def comboTableSpec : List (SocketType × SocketType) :=
  [(.Req, .Rep), (.Req, .Router),
   (.Rep, .Req), (.Rep, .Dealer),
   (.Dealer, .Rep), (.Dealer, .Dealer), (.Dealer, .Router),
   (.Router, .Req), (.Router, .Dealer), (.Router, .Router),
   (.Pub, .Sub), (.Pub, .XSub),
   (.XPub, .Sub), (.XPub, .XSub),
   (.Sub, .Pub), (.Sub, .XPub),
   (.XSub, .Pub), (.XSub, .XPub),
   (.Push, .Pull), (.Pull, .Push),
   (.Pair, .Pair)]

/-- A wire greeting with valid signature markers, arbitrary version bytes,
mechanism "NULL" (NUL-padded to 20 bytes), as-server byte `x`, and filler. -/
def greetingBytes (pad fill : List Nat) (vmaj vmin x : Nat) : List Nat :=
  [255] ++ pad ++ [127] ++ [vmaj] ++ [vmin] ++
    (NULL_MECHANISM ++ List.replicate 16 0) ++ [x] ++ fill

/-- Command name used in the encode/decode counterexample: 16 times 'a'. -/
def c3CexName : List Nat := List.replicate 16 97

/-- Command payload used in the encode/decode counterexample: 240 times 'B'
(name + payload exceed 255 bytes while the payload alone does not). -/
def c3CexData : List Nat := List.replicate 240 66

/-- A concrete valid NULL greeting from the peer: signature, version 3.0,
mechanism "NULL", as-server = 0, filler. -/
def c5Greeting : List Nat :=
  [255] ++ List.replicate 80 0 ++ [127] ++ [3, 0] ++
    (NULL_MECHANISM ++ List.replicate 16 0) ++ [0] ++ List.replicate 31 0

/-- A peer READY payload declaring socket-type "PUB", encoded exactly as the
spec's properties wire format prescribes: 1-octet name length, name bytes,
4-octet big-endian value length, value bytes. -/
def c5PeerReadyPayload : List Nat :=
  [11] ++ SOCKET_TYPE_KEY ++ [0, 0, 0, 3] ++ [80, 85, 66]

/-- The peer's READY command frame on the wire: COMMAND flags octet, length
octet, NUL-terminated name "READY", then the properties payload. -/
def c5PeerFrame : List Nat := [4, 25] ++ READY_NAME ++ [0] ++ c5PeerReadyPayload

/-!
Theorems.  Helper lemmas first, then one theorem per claim (with witnesses
for the theorems that carry hypotheses).
-/

set_option maxRecDepth 1000000

theorem readExact_append (n : Nat) (a b : List Nat) (h : a.length = n) :
    readExact n (a ++ b) = some (a, b) := by
  subst h
  simp [readExact]

theorem fromBe_toBeBytes8 (n : Nat) (h : n < 2 ^ 64) :
    fromBeBytes (toBeBytes8 n) = n := by
  simp [fromBeBytes, toBeBytes8, List.foldl]
  omega

theorem readUntil_append (delim : Nat) (a rest : List Nat) (h : ¬ delim ∈ a) :
    readUntil delim (a ++ delim :: rest) = (a ++ [delim], rest) := by
  induction a with
  | nil => simp [readUntil]
  | cons x xs ih =>
    simp only [List.mem_cons, not_or] at h
    simp [readUntil, h.1, ih h.2, Ne.symm h.1]

theorem write_to_message_short (more : Bool) (payload : List Nat)
    (h : payload.length ≤ 255) :
    Frame.write_to (Frame.message more payload) =
      (if more then 1 else 0) :: 0 :: payload := by
  have hdiv : payload.length / 2 ^ 56 = 0 := Nat.div_eq_of_lt (by omega)
  have hnot : ¬ payload.length > 255 := by omega
  cases more <;>
    simp [Frame.write_to, Frame.data, set_bit, toBeBytes8, hdiv, hnot] <;> omega

theorem write_to_message_long (more : Bool) (payload : List Nat)
    (h : 255 < payload.length) :
    Frame.write_to (Frame.message more payload) =
      ((if more then 1 else 0) ||| 2) :: (toBeBytes8 payload.length ++ payload) := by
  cases more <;>
    simp [Frame.write_to, Frame.data, set_bit, toBeBytes8, h]

theorem read_new_short_message (more : Bool) (payload : List Nat) :
    Frame.read_new ((if more then 1 else 0) :: 0 :: payload) =
      .ok (Frame.message more payload, []) := by
  cases more <;>
    simp [Frame.read_new, readExact, fromBeBytes, get_bit, List.take_succ_cons,
      List.drop_succ_cons,
      show Nat.testBit 0 0 = false from by decide,
      show Nat.testBit 0 1 = false from by decide,
      show Nat.testBit 0 2 = false from by decide,
      show Nat.testBit 0 3 = false from by decide,
      show Nat.testBit 0 4 = false from by decide,
      show Nat.testBit 0 5 = false from by decide,
      show Nat.testBit 0 6 = false from by decide,
      show Nat.testBit 0 7 = false from by decide,
      show Nat.testBit 1 0 = true from by decide,
      show Nat.testBit 1 1 = false from by decide,
      show Nat.testBit 1 2 = false from by decide,
      show Nat.testBit 1 3 = false from by decide,
      show Nat.testBit 1 4 = false from by decide,
      show Nat.testBit 1 5 = false from by decide,
      show Nat.testBit 1 6 = false from by decide,
      show Nat.testBit 1 7 = false from by decide]

theorem write_to_command_short (name data : List Nat)
    (h : data.length + name.length ≤ 255) :
    Frame.write_to (Frame.command name data) = 4 :: 0 :: (name ++ 0 :: data) := by
  have hdata : ¬ data.length > 255 := by omega
  have htot : ¬ data.length + name.length > 255 := by omega
  have hdiv : data.length / 2 ^ 56 = 0 := Nat.div_eq_of_lt (by omega)
  simp [Frame.write_to, Frame.data, set_bit, toBeBytes8, hdata, htot, hdiv]
  omega

theorem write_to_command_long (name data : List Nat)
    (h : 255 < data.length) :
    Frame.write_to (Frame.command name data) =
      6 :: (toBeBytes8 data.length ++ (name ++ 0 :: data)) := by
  have htot : data.length + name.length > 255 := by omega
  simp [Frame.write_to, Frame.data, set_bit, toBeBytes8, h, htot]

theorem read_new_command_payload (name data : List Nat) (lenByte : Nat)
    (hvalid : isValidUtf8 name = true) (hnul : ¬ 0 ∈ name) :
    Frame.read_new (4 :: lenByte :: (name ++ 0 :: data)) =
      .ok (Frame.command name data, []) := by
  simp [Frame.read_new, readExact, fromBeBytes, get_bit,
    List.take_succ_cons, List.drop_succ_cons,
    readUntil_append 0 name data hnul, hvalid,
    show Nat.testBit 4 0 = false from by decide,
    show Nat.testBit 4 1 = false from by decide,
    show Nat.testBit 4 2 = true from by decide,
    show Nat.testBit 4 3 = false from by decide,
    show Nat.testBit 4 4 = false from by decide,
    show Nat.testBit 4 5 = false from by decide,
    show Nat.testBit 4 6 = false from by decide,
    show Nat.testBit 4 7 = false from by decide]

theorem read_new_command_long (name data lenBytes : List Nat)
    (hlen : lenBytes.length = 8)
    (hvalid : isValidUtf8 name = true) (hnul : ¬ 0 ∈ name) :
    Frame.read_new (6 :: (lenBytes ++ (name ++ 0 :: data))) =
      .ok (Frame.command name data, []) := by
  simp [Frame.read_new, readExact, fromBeBytes, get_bit,
    List.take_succ_cons, List.drop_succ_cons,
    readUntil_append 0 name data hnul, hvalid,
    show Nat.testBit 6 0 = false from by decide,
    show Nat.testBit 6 1 = true from by decide,
    show Nat.testBit 6 2 = true from by decide,
    show Nat.testBit 6 3 = false from by decide,
    show Nat.testBit 6 4 = false from by decide,
    show Nat.testBit 6 5 = false from by decide,
    show Nat.testBit 6 6 = false from by decide,
    show Nat.testBit 6 7 = false from by decide,
    show (8 : Nat) ≤ 8 + (name ++ 0 :: data).length from by omega, hlen]

theorem charUtf8Enc_length (c : Nat) : (charUtf8Enc c).length = charUtf8Len c := by
  unfold charUtf8Enc charUtf8Len
  split_ifs <;> rfl

theorem utf8Encode_cons (c : Nat) (rest : List Nat) :
    utf8Encode (c :: rest) = charUtf8Enc c ++ utf8Encode rest := by
  simp [utf8Encode]

theorem utf8Encode_append (a b : List Nat) :
    utf8Encode (a ++ b) = utf8Encode a ++ utf8Encode b := by
  simp [utf8Encode]

theorem finalByteIdx_spec (msg : List Nat) (acc : Nat) (hacc : acc ≤ 255) :
    ∃ p q, msg = p ++ q ∧
      finalByteIdx msg acc = acc + (utf8Encode p).length ∧
      acc + (utf8Encode p).length ≤ 255 := by
  induction msg generalizing acc with
  | nil =>
    exact ⟨[], [], rfl, by simp [finalByteIdx, utf8Encode], by simpa [utf8Encode]⟩
  | cons c rest ih =>
    by_cases h : acc + charUtf8Len c > 255
    · exact ⟨[], c :: rest, rfl, by simp [finalByteIdx, h, utf8Encode],
        by simpa [utf8Encode]⟩
    · obtain ⟨p, q, heq, hidx, hle⟩ := ih (acc + charUtf8Len c) (by omega)
      refine ⟨c :: p, q, by simp [heq], ?_, ?_⟩
      · simp [finalByteIdx, h, utf8Encode_cons, charUtf8Enc_length, hidx]
        omega
      · simp [utf8Encode_cons, charUtf8Enc_length]
        omega

theorem perform_written (input : List Nat) (st : SocketType) :
    (NullHandshake.perform input st).2 = Frame.write_to (readyFrame st) := by
  unfold NullHandshake.perform
  cases Frame.read_new input with
  | err e => rfl
  | panic => rfl
  | ok a =>
    rcases a with ⟨f, rest⟩
    cases f with
    | message m d => rfl
    | command n d =>
      by_cases h : n = READY_NAME
      · simp only [h]
        cases Properties.parse_from_slice d <;> simp
      · simp [h]

/-- C1: for every `more` flag and payload of length at most 255, writing a
Message frame with `write_to` and reading the bytes back with `read_new`
yields a Message frame with the same `more` flag and identical payload; for
payloads longer than 255 bytes, the flags octet written has the LONG bit
(bit 1) set and the bytes written after the flags octet are the 8-byte
big-endian encoding of exactly the payload length. -/
theorem frame_message_encode_decode (more : Bool) (payload : List Nat) :
    (payload.length ≤ 255 →
      Frame.read_new (Frame.write_to (Frame.message more payload)) =
        .ok (Frame.message more payload, [])) ∧
    (255 < payload.length → payload.length < 2 ^ 64 →
      get_bit ((Frame.write_to (Frame.message more payload)).headD 0) 1 = true ∧
      ((Frame.write_to (Frame.message more payload)).drop 1).take 8 =
        toBeBytes8 payload.length ∧
      fromBeBytes (toBeBytes8 payload.length) = payload.length) := by
  constructor
  · intro h
    rw [write_to_message_short more payload h]
    exact read_new_short_message more payload
  · intro h hsize
    rw [write_to_message_long more payload h]
    refine ⟨?_, ?_, fromBe_toBeBytes8 _ hsize⟩
    · cases more <;> simp [get_bit] <;> decide
    · simp [toBeBytes8]

/-- Witness for C1 at a 1-byte payload (round trip) and a 256-byte payload
(LONG flag set). -/
theorem frame_message_encode_decode_witness :
    Frame.read_new (Frame.write_to (Frame.message true [7])) =
      .ok (Frame.message true [7], []) ∧
    get_bit ((Frame.write_to (Frame.message false (List.replicate 256 9))).headD 0) 1 =
      true :=
  ⟨(frame_message_encode_decode true [7]).1 (by decide),
    ((frame_message_encode_decode false (List.replicate 256 9)).2 (by decide)
      (by decide)).1⟩

/-- C2: contrary to the claim, `read_new` does not stop after the declared
body length.  On a stream holding two complete well-formed Message frames
(flags 0x00, length 0x01, one payload byte each), `read_new` consumes the
entire stream — `read_to_end` swallows the second frame's bytes into the
first frame's payload — instead of returning payload [170] and leaving
[0, 1, 187] unconsumed. -/
theorem frame_read_new_consumes_second_frame :
    Frame.read_new ([0, 1, 170] ++ [0, 1, 187]) =
      .ok (Frame.message false [170, 0, 1, 187], []) := by
  decide

/-- Counterexample for C3.  First conjunct: with a 16-byte name and a
240-byte payload (name + payload > 255 but payload ≤ 255) the encoder sets
the flags octet for a short frame yet writes an 8-byte length field, so
decoding the encoded frame does not return the original frame.  Second
conjunct: with a 1-byte name and a 254-byte payload, the wire body including
the NUL terminator is 256 bytes, yet the encoder still chooses the 1-byte
length encoding (total written size 258 = 1 flags + 1 length + 1 name +
1 NUL + 254 payload), so the width decision does not include the
terminator. -/
theorem frame_command_encode_decode_cex :
    Frame.read_new (Frame.write_to (Frame.command c3CexName c3CexData)) ≠
      .ok (Frame.command c3CexName c3CexData, []) ∧
    (Frame.write_to (Frame.command [97] (List.replicate 254 66))).length = 258 := by
  decide

/-- C3 (amended): for every command name that is valid UTF-8 without NUL
bytes, encoding then decoding a Command frame restores the name and payload
provided name-length + payload-length ≤ 255 or payload-length > 255; and the
encoder chooses between the 1- and 8-byte length encodings from the payload
plus command-name size, not including the NUL terminator. -/
theorem frame_command_encode_decode_amended (name data : List Nat)
    (hvalid : isValidUtf8 name = true) (hnul : ¬ 0 ∈ name)
    (hregion : name.length + data.length ≤ 255 ∨ 255 < data.length) :
    Frame.read_new (Frame.write_to (Frame.command name data)) =
      .ok (Frame.command name data, []) ∧
    (Frame.write_to (Frame.command name data)).length =
      1 + (if 255 < data.length + name.length then 8 else 1) +
        (name.length + 1 + data.length) := by
  rcases hregion with h | h
  · have h' : data.length + name.length ≤ 255 := by omega
    rw [write_to_command_short name data h']
    refine ⟨read_new_command_payload name data 0 hvalid hnul, ?_⟩
    have hno : ¬ 255 < data.length + name.length := by omega
    simp [hno]
    omega
  · have htot : 255 < data.length + name.length := by omega
    rw [write_to_command_long name data h]
    refine ⟨read_new_command_long name data (toBeBytes8 data.length)
      (by simp [toBeBytes8]) hvalid hnul, ?_⟩
    simp [htot, toBeBytes8]
    omega

/-- Witness for the amended C3 at name "READY" and payload [1, 2]. -/
theorem frame_command_encode_decode_amended_witness :
    Frame.read_new (Frame.write_to (Frame.command READY_NAME [1, 2])) =
      .ok (Frame.command READY_NAME [1, 2], []) :=
  (frame_command_encode_decode_amended READY_NAME [1, 2] (by decide) (by decide)
    (Or.inl (by decide))).1

/-- C4: the Properties codec does not round-trip.  First conjunct: writing
the single-entry map "a" ↦ "" and parsing the produced bytes fails with
ZeroSizedName, because `write_to` emits 8-byte `usize` length fields where
the format requires a 1-octet name length and 4-octet value length.  Second
conjunct: even the spec-conformant encoding of "a" ↦ "" is rejected with
NameInvalidChar, because the parser's character check demands each name
character be alphanumeric AND punctuation simultaneously. -/
theorem properties_write_parse_mismatch :
    Properties.parse_from_slice (Properties.write_to ⟨[([97], [])]⟩) =
      .err .zeroSizedName ∧
    Properties.parse_from_slice ([1, 97] ++ [0, 0, 0, 0]) = .err .nameInvalidChar := by
  decide

/-- C5: contrary to the claim, a REQ connection whose peer presents a valid
NULL greeting and a READY command declaring socket-type "PUB" does not end
in InvalidSocketCombination(REQ, PUB) with an ERROR frame sent: the
handshake already fails parsing the peer's properties (NameInvalidChar), the
bytes written are exactly the outgoing READY frame (no ERROR frame), and
even with parsed properties `SocketType::try_from` would reject "PUB" as
known-but-unsupported before any compatibility check. -/
theorem connection_new_req_with_peer_declaring_pub :
    (Connection.new (c5Greeting ++ c5PeerFrame) SocketType.Req).1 =
      .err (.handshake (.null (.propertiesParse .nameInvalidChar))) ∧
    (Connection.new (c5Greeting ++ c5PeerFrame) SocketType.Req).2 =
      Frame.write_to (readyFrame SocketType.Req) ∧
    SocketType.try_from [80, 85, 66] = .err (.unsupported [80, 85, 66]) := by
  decide

/-- C6: `valid_socket_combo` is total over all 11 × 11 ordered pairs,
returns true exactly on the pairs of the spec's table, and the induced
relation is symmetric. -/
theorem valid_socket_combo_table :
    ∀ a b : SocketType,
      (SocketType.valid_socket_combo a b = true ↔ (a, b) ∈ comboTableSpec) ∧
      SocketType.valid_socket_combo a b = SocketType.valid_socket_combo b a := by
  intro a b
  cases a <;> cases b <;> exact ⟨by decide, by decide⟩

/-- C7: for every input message, `new_fatal_error` returns a Command frame
named "ERROR" whose data is one length octet n followed by exactly those n
bytes, where n ≤ 255 and the bytes are the UTF-8 encoding of a character
prefix of the message — a prefix of the message's UTF-8 encoding that ends
on a character boundary. -/
theorem new_fatal_error_spec (msg : List Nat) :
    ∃ p q : List Nat,
      msg = p ++ q ∧
      Frame.new_fatal_error msg =
        Frame.command ERROR_NAME ((utf8Encode p).length :: utf8Encode p) ∧
      (utf8Encode p).length ≤ 255 := by
  obtain ⟨p, q, heq, hidx, hle⟩ := finalByteIdx_spec msg 0 (by omega)
  refine ⟨p, q, heq, ?_, by omega⟩
  have htake : (utf8Encode msg).take ((utf8Encode p).length) = utf8Encode p := by
    rw [heq, utf8Encode_append]
    simp
  simp [Frame.new_fatal_error, hidx, htake]

/-- C8: `NullHandshake::perform` writes exactly one READY command carrying
the serialized local properties; a received Message frame or a Command not
named "READY" yields NoReadyCommand; a Command named "READY" has its payload
parsed as Properties, with any parse error propagated as the handshake's
failure. -/
theorem null_handshake_perform_spec (input : List Nat) (socket_type : SocketType) :
    ((NullHandshake.perform input socket_type).2 =
      Frame.write_to (readyFrame socket_type)) ∧
    (∀ more d rest, Frame.read_new input = .ok (Frame.message more d, rest) →
      (NullHandshake.perform input socket_type).1 = .err .noReadyCommand) ∧
    (∀ n d rest, Frame.read_new input = .ok (Frame.command n d, rest) →
      n ≠ READY_NAME →
      (NullHandshake.perform input socket_type).1 = .err .noReadyCommand) ∧
    (∀ d rest e, Frame.read_new input = .ok (Frame.command READY_NAME d, rest) →
      Properties.parse_from_slice d = .err e →
      (NullHandshake.perform input socket_type).1 = .err (.propertiesParse e)) := by
  refine ⟨perform_written input socket_type, ?_, ?_, ?_⟩
  · intro more d rest hr
    unfold NullHandshake.perform
    rw [hr]
  · intro n d rest hr hne
    unfold NullHandshake.perform
    rw [hr]
    simp [hne]
  · intro d rest e hr hp
    unfold NullHandshake.perform
    rw [hr]
    simp [hp]

/-- Witness for C8: a received READY command with payload [0] makes the
handshake propagate the properties parse error ZeroSizedName. -/
theorem null_handshake_perform_spec_witness :
    (NullHandshake.perform (Frame.write_to (Frame.command READY_NAME [0]))
        SocketType.Req).1 =
      .err (.propertiesParse .zeroSizedName) :=
  (null_handshake_perform_spec (Frame.write_to (Frame.command READY_NAME [0]))
      SocketType.Req).2.2.2 [0] [] .zeroSizedName (by decide) (by decide)

/-- C9: after a valid signature, arbitrary version, and mechanism "NULL",
the as-server octet 0 parses as the client role, 1 as the server role, and
any other value x fails with the AsServer error carrying exactly x. -/
theorem greeting_as_server_byte (pad fill : List Nat) (vmaj vmin x : Nat)
    (hpad : pad.length = 80) (hfill : fill.length = 31) :
    (x = 0 → Greeting.read_new (greetingBytes pad fill vmaj vmin x) =
      .ok (⟨⟨vmaj, vmin⟩, .Null, .Client⟩, [])) ∧
    (x = 1 → Greeting.read_new (greetingBytes pad fill vmaj vmin x) =
      .ok (⟨⟨vmaj, vmin⟩, .Null, .Server⟩, [])) ∧
    (x ≠ 0 → x ≠ 1 → Greeting.read_new (greetingBytes pad fill vmaj vmin x) =
      .err (.asServer x)) := by
  have hfillx : readExact FILLER_LEN fill = some (fill, []) := by
    simp [readExact, FILLER_LEN, hfill]
  have hmech : ∀ r : List Nat,
      readExact 20 (NULL_MECHANISM ++ (List.replicate 16 0 ++ r)) =
        some (NULL_MECHANISM ++ List.replicate 16 0, r) := by
    intro r
    rw [← List.append_assoc]
    exact readExact_append 20 _ r (by decide)
  have hpadx : ∀ r : List Nat, readExact PADDING_LEN (pad ++ r) = some (pad, r) :=
    fun r => readExact_append PADDING_LEN pad r (by simp [hpad, PADDING_LEN])
  have hone : ∀ (b : Nat) (r : List Nat), readExact 1 ([b] ++ r) = some ([b], r) :=
    fun b r => readExact_append 1 [b] r rfl
  have hfb : ∀ b : Nat, fromBeBytes [b] = b := fun b => by simp [fromBeBytes]
  unfold greetingBytes Greeting.read_new
  simp only [List.append_assoc]
  simp only [hone, hpadx, hmech, hfillx]
  simp only [hfb,
    show (NULL_MECHANISM ++ List.replicate 16 0).findIdx (fun y => y == 0) = 4
      from by decide,
    show (NULL_MECHANISM ++ List.replicate 16 0).take 4 = NULL_MECHANISM
      from by decide,
    show isValidUtf8 NULL_MECHANISM = true from by decide,
    show (utf8DecodeChars NULL_MECHANISM).any mechanismCharBad = false from by decide]
  refine ⟨?_, ?_, ?_⟩
  · intro h0
    simp [h0]
  · intro h1
    simp [h1]
  · intro h0 h1
    simp [h0, h1]

/-- Witness for C9 at as-server bytes 2 (error carrying 2) and 0 (client
role), with concrete padding and filler. -/
theorem greeting_as_server_byte_witness :
    Greeting.read_new (greetingBytes (List.replicate 80 0) (List.replicate 31 0) 3 0 2) =
      .err (.asServer 2) ∧
    Greeting.read_new (greetingBytes (List.replicate 80 0) (List.replicate 31 0) 3 0 0) =
      .ok (⟨⟨3, 0⟩, .Null, .Client⟩, []) :=
  ⟨(greeting_as_server_byte (List.replicate 80 0) (List.replicate 31 0) 3 0 2
      (by simp) (by simp)).2.2 (by decide) (by decide),
   (greeting_as_server_byte (List.replicate 80 0) (List.replicate 31 0) 3 0 0
      (by simp) (by simp)).1 rfl⟩

/-- C10: `new_fatal_error` never panics: the truncation index it computes is
at most 255, never exceeds the message's UTF-8 byte length (so the slice is
in bounds), always equals the byte length of a character prefix of the
message (so the slice lands on a UTF-8 character boundary), and the
truncated length fits in a u8 (so the conversion succeeds). -/
theorem new_fatal_error_total (msg : List Nat) :
    finalByteIdx msg 0 ≤ 255 ∧
    finalByteIdx msg 0 ≤ (utf8Encode msg).length ∧
    ∃ p q, msg = p ++ q ∧ finalByteIdx msg 0 = (utf8Encode p).length ∧
      ((utf8Encode msg).take (finalByteIdx msg 0)).length ≤ 255 := by
  obtain ⟨p, q, heq, hidx, hle⟩ := finalByteIdx_spec msg 0 (by omega)
  simp only [Nat.zero_add] at hidx hle
  refine ⟨by omega, ?_, p, q, heq, hidx, ?_⟩
  · rw [hidx, heq, utf8Encode_append]
    simp
  · simp [List.length_take]
    omega

end Oxzmq
